import Mathlib

/-!
Shallow embedding of `tensorflow/compiler/xla/service/gpu/ir_emission_utils.cc`:
the GPU backend's library-dispatch classifiers (GEMM eligibility, cuDNN
batch-norm / convolution custom-call recognition, reduction-to-vector
validation) and the cross-lane warp shuffle-down emitter, together with the
single-lane-zero predicate.

Conventions of the embedding:
* machine integers are `Nat` with explicit `% 2 ^ w` where a fixed width
  matters; a value of an LLVM type of width `w` is its bit pattern, a `Nat`
  below `2 ^ w`;
* a warp-wide SIMD value is a function from lane index to bit pattern, and
  the emitted instruction sequence is modelled by its per-lane semantics;
* a C++ function whose failure mode is a fatal `CHECK` abort returns
  `Option` here, with `none` standing for the abort;
* helpers of this repository that are only declared, not defined, in the
  staged sources (`ShapeUtil`, `LayoutUtil`, `CeilOfRatio`, the
  `__ockl_readuplane_i32` lane-read contract) are modelled from the spec and
  say so in their doc comments.
-/

namespace XlaGpu

/-- XLA element types (`xla_data.pb.h`); the subset that the staged code
mentions plus enough others for "exactly five allowed types" to bite. -/
inductive PrimitiveType : Type where
  | PRED | S8 | S16 | S32 | S64 | U8 | U16 | U32 | U64
  | F16 | BF16 | F32 | F64 | C64 | C128
  deriving DecidableEq

/-- An XLA `Shape`: element type, dimension extents, and the layout's
minor-to-major ordering of dimension indices. -/
structure Shape : Type where
  element_type : PrimitiveType
  dimensions : List Nat
  minor_to_major : List Nat
  deriving DecidableEq

/-- `Shape::rank()`: the number of dimensions. -/
def Shape.rank (s : Shape) : Nat := s.dimensions.length

/-- `Shape::dimensions(i)`: the extent of dimension `i` (the staged claims
only ever read in-range indices, where the C++ accessor is total). -/
def Shape.dimension (s : Shape) (i : Nat) : Nat := s.dimensions.getD i 0

/-- `DotDimensionNumbers`: the contracting / batch dimension index lists of a
dot operation. -/
structure DotDimensionNumbers : Type where
  lhs_contracting_dimensions : List Nat
  rhs_contracting_dimensions : List Nat
  lhs_batch_dimensions : List Nat
  rhs_batch_dimensions : List Nat
  deriving DecidableEq

/-- The HLO opcodes the staged code branches on, plus representatives of the
opcodes it treats as opaque. -/
inductive HloOpcode : Type where
  | kDot | kFusion | kMultiply | kAdd | kCustomCall | kReduce
  | kParameter | kConstant | kSubtract
  deriving DecidableEq

/-- `HloInstruction::FusionKind`. -/
inductive FusionKind : Type where
  | kLoop | kInput | kOutput | kCustom
  deriving DecidableEq

/-- An HLO instruction: opcode, shape, operands, and the opcode-specific
fields the staged code reads (fusion kind and fused expression root for
fusions, call target for custom calls, dot dimension numbers for dots,
the eliminated-dimension list for reductions). -/
inductive HloInstruction : Type where
  | node
      (opcode : HloOpcode)
      (shape : Shape)
      (operands : List HloInstruction)
      (fusion_kind : FusionKind)
      (fused_expression_root : Option HloInstruction)
      (custom_call_target : String)
      (dot_dimension_numbers : DotDimensionNumbers)
      (dimensions : List Nat)

def HloInstruction.opcode : HloInstruction → HloOpcode
  | .node op _ _ _ _ _ _ _ => op

def HloInstruction.shape : HloInstruction → Shape
  | .node _ sh _ _ _ _ _ _ => sh

def HloInstruction.operands : HloInstruction → List HloInstruction
  | .node _ _ ops _ _ _ _ _ => ops

def HloInstruction.fusion_kind : HloInstruction → FusionKind
  | .node _ _ _ fk _ _ _ _ => fk

def HloInstruction.fused_expression_root : HloInstruction → Option HloInstruction
  | .node _ _ _ _ fr _ _ _ => fr

def HloInstruction.custom_call_target : HloInstruction → String
  | .node _ _ _ _ _ cct _ _ => cct

def HloInstruction.dot_dimension_numbers : HloInstruction → DotDimensionNumbers
  | .node _ _ _ _ _ _ dn _ => dn

/-- `HloInstruction::dimensions()`: for a reduce, the eliminated dimension
indices. -/
def HloInstruction.dimensions : HloInstruction → List Nat
  | .node _ _ _ _ _ _ _ ds => ds

/-- `HloInstruction::operand(i)`; `none` models the bounds `CHECK` of the
C++ accessor firing. -/
def HloInstruction.operand (h : HloInstruction) (i : Nat) : Option HloInstruction :=
  h.operands.get? i

/-- Modelled from the spec: `ShapeUtil::IsZeroElementArray` (defined outside
the staged sources) — a shape counts as a zero-element array exactly when it
has a zero-extent dimension. -/
def ShapeUtil.IsZeroElementArray (s : Shape) : Bool :=
  s.dimensions.contains 0

/-- Return whether the given shape is rank 2 excluding the batch dimensions. -/
def IsRank2 (shape : Shape) (batch_dimensions_size : Nat) : Bool :=
  shape.rank == batch_dimensions_size + 2

/-- In a gemm operation where output = lhs * rhs, check whether the given
shapes are valid for the operation. -/
def AreValidGemmShapes (lhs_shape rhs_shape output_shape : Shape)
    (batch_dimensions_size : Nat) : Bool :=
  let output_primitive_type := output_shape.element_type
  let type_is_allowed :=
    (output_primitive_type == PrimitiveType.F16 ||
     output_primitive_type == PrimitiveType.F32 ||
     output_primitive_type == PrimitiveType.F64 ||
     output_primitive_type == PrimitiveType.C64 ||
     output_primitive_type == PrimitiveType.C128)
  type_is_allowed && IsRank2 lhs_shape batch_dimensions_size &&
    IsRank2 rhs_shape batch_dimensions_size &&
    IsRank2 output_shape batch_dimensions_size &&
    !(ShapeUtil.IsZeroElementArray lhs_shape) &&
    !(ShapeUtil.IsZeroElementArray rhs_shape)

/-- `DotImplementedAsGemm`; `none` models a fatal `CHECK` abort (the entry
`CHECK_EQ(dot.opcode(), HloOpcode::kDot)`, an out-of-range operand access, or
the mismatched-contracting-extent `CHECK_EQ`). -/
def DotImplementedAsGemm (dot : HloInstruction) : Option Bool :=
  if dot.opcode ≠ HloOpcode.kDot then none
  else
    match dot.operand 0, dot.operand 1 with
    | some lhs, some rhs =>
      let lhs_shape := lhs.shape
      let rhs_shape := rhs.shape
      let dim_numbers := dot.dot_dimension_numbers
      if AreValidGemmShapes lhs_shape rhs_shape dot.shape
          dim_numbers.lhs_batch_dimensions.length then
        if lhs_shape.dimension (dim_numbers.lhs_contracting_dimensions.getD 0 0) =
            rhs_shape.dimension (dim_numbers.rhs_contracting_dimensions.getD 0 0) then
          some true
        else none
      else some false
    | _, _ => none

/-- `ImplementedAsGemm`; `none` models a fatal abort inside
`DotImplementedAsGemm` or a malformed fusion node. -/
def ImplementedAsGemm (hlo : HloInstruction) : Option Bool :=
  if hlo.opcode = HloOpcode.kDot then
    DotImplementedAsGemm hlo
  else if hlo.opcode = HloOpcode.kFusion then
    if hlo.fusion_kind = FusionKind.kOutput then
      match hlo.fused_expression_root with
      | none => none
      | some root =>
        if root.opcode = HloOpcode.kMultiply ∨ root.opcode = HloOpcode.kAdd then
          match root.operand 0 with
          | none => none
          | some first =>
            let dsel : Option HloInstruction :=
              if first.opcode ≠ HloOpcode.kDot then root.operand 1 else some first
            match dsel with
            | none => none
            | some dot =>
              if dot.opcode = HloOpcode.kDot then DotImplementedAsGemm dot
              else some false
        else some false
    else some false
  else some false

def kCudnnBatchNormForwardInferenceCallTarget : String :=
  "__cudnn$batchNormalizationForwardInference"

def kCudnnBatchNormForwardTrainingCallTarget : String :=
  "__cudnn$batchNormalizationForwardTraining"

def kCudnnBatchNormBackwardCallTarget : String :=
  "__cudnn$batchNormalizationBackward"

def IsCustomCallToDnnBatchNorm (hlo : HloInstruction) : Bool :=
  if hlo.opcode ≠ HloOpcode.kCustomCall then false
  else
    let target := hlo.custom_call_target
    target == kCudnnBatchNormForwardInferenceCallTarget ||
    target == kCudnnBatchNormForwardTrainingCallTarget ||
    target == kCudnnBatchNormBackwardCallTarget

def kCudnnConvForwardCallTarget : String := "__cudnn$convForward"

def kCudnnConvBackwardInputCallTarget : String := "__cudnn$convBackwardInput"

def kCudnnConvBackwardFilterCallTarget : String := "__cudnn$convBackwardFilter"

def kCudnnConvBiasActivationForwardCallTarget : String :=
  "__cudnn$convBiasActivationForward"

def IsCustomCallToDnnConvolution (hlo : HloInstruction) : Bool :=
  if hlo.opcode ≠ HloOpcode.kCustomCall then false
  else
    let target := hlo.custom_call_target
    target == kCudnnConvForwardCallTarget ||
    target == kCudnnConvBackwardInputCallTarget ||
    target == kCudnnConvBackwardFilterCallTarget ||
    target == kCudnnConvBiasActivationForwardCallTarget

inductive CudnnConvKind : Type where
  | kForward | kBackwardInput | kBackwardFilter | kForwardActivation
  deriving DecidableEq

/-- `GetCudnnConvKind`; `Except.error` models the `InternalError` status
`"Unexpected call target: %s"` carrying the offending target string. -/
def GetCudnnConvKind (instr : HloInstruction) : Except String CudnnConvKind :=
  let target := instr.custom_call_target
  if target = kCudnnConvForwardCallTarget then
    Except.ok CudnnConvKind.kForward
  else if target = kCudnnConvBackwardInputCallTarget then
    Except.ok CudnnConvKind.kBackwardInput
  else if target = kCudnnConvBackwardFilterCallTarget then
    Except.ok CudnnConvKind.kBackwardFilter
  else if target = kCudnnConvBiasActivationForwardCallTarget then
    Except.ok CudnnConvKind.kForwardActivation
  else
    Except.error ("Unexpected call target: " ++ target)

/-- The call-target identifier that `GetCudnnConvKind` maps to each
enumeration value; used to state its correctness. -/
def convKindTarget : CudnnConvKind → String
  | CudnnConvKind.kForward => kCudnnConvForwardCallTarget
  | CudnnConvKind.kBackwardInput => kCudnnConvBackwardInputCallTarget
  | CudnnConvKind.kBackwardFilter => kCudnnConvBackwardFilterCallTarget
  | CudnnConvKind.kForwardActivation => kCudnnConvBiasActivationForwardCallTarget

/-- Whether all `true` entries of a boolean mask are consecutive. -/
def trueRunConsecutive (l : List Bool) : Bool :=
  ((l.dropWhile (fun b => !b)).dropWhile (fun b => b)).all (fun b => !b)

/-- Modelled from the spec: `LayoutUtil::AreDimensionsConsecutive` (defined
outside the staged sources) — the given dimensions occupy a physically
contiguous run of the minor-to-major layout order, with no other dimension
interleaved among them. -/
def AreDimensionsConsecutive (minor_to_major : List Nat) (dims : List Nat) : Bool :=
  trueRunConsecutive (minor_to_major.map (fun d => dims.contains d))

/-- The `dims_to_keep` computation of `IsReductionToVector`: the ascending
dimensions of the input not present in the reduce's eliminated set. -/
def dims_to_keep (reduce input : HloInstruction) : List Nat :=
  (List.range input.shape.rank).filter (fun dim => !(reduce.dimensions.contains dim))

/-- Modelled from the spec: the combination
`ShapeUtil::Equal(out, ShapeUtil::FilterDimensions(pred, in))` (both defined
outside the staged sources) — the declared output shape equals,
dimension-for-dimension in the same relative order, the input shape with the
non-kept dimensions filtered out. -/
def equalsFilteredShape (out : Shape) (input : Shape) (keep : Nat → Bool) : Bool :=
  out.dimensions == ((List.range input.rank).filter keep).map input.dimension

def IsReductionToVector (reduce : HloInstruction) : Option Bool :=
  if reduce.opcode ≠ HloOpcode.kReduce then some false
  else
    match reduce.operand 0 with
    | none => none
    | some input =>
      some (AreDimensionsConsecutive input.shape.minor_to_major
              (dims_to_keep reduce input) &&
            equalsFilteredShape reduce.shape input.shape
              (fun dim => (dims_to_keep reduce input).contains dim))

/-- A warp-wide SIMD value: each lane's bit pattern. -/
def Warp : Type := Nat → Nat

/-- Modelled from the spec: the `__ockl_readuplane_i32` hardware cross-lane
read — every lane receives the value held by the lane `offset` positions
ahead in the group (out-of-group lanes are the caller's responsibility and
are left unconstrained by identifying them through `Nat` addition). -/
def readuplane (x : Warp) (offset : Nat) : Warp :=
  fun lane => x (lane + offset)

/-- Modelled from the spec: `CeilOfRatio(bit_width, 32)` (defined outside the
staged sources) — the minimum count of 32-bit segments covering `bit_width`
bits. -/
def num_segments (bit_width : Nat) : Nat := (bit_width + 32 - 1) / 32

/-- Segment `i` (32 bits wide, little-endian segment order) of the bit
pattern `v`, as produced by bit-casting to a vector of 32-bit lanes. -/
def segment (v i : Nat) : Nat := v / 2 ^ (32 * i) % 2 ^ 32

/-- `CreateInsertElement`: vectors are modelled as index-to-word functions. -/
def insertElement (x : Nat → Nat) (v : Nat) (i : Nat) : Nat → Nat :=
  fun j => if j = i then v else x j

/-- The shuffle emitter's loop: iteration `i` extracts element `i` of the
warp-wide vector, issues the cross-lane read on it, and inserts the result
back at position `i`. -/
def shuffleLoop (offset : Nat) (x : Nat → Nat → Nat) : Nat → Nat → Nat → Nat
  | 0 => x
  | i + 1 => fun lane =>
      insertElement (shuffleLoop offset x i lane)
        (readuplane (fun l => shuffleLoop offset x i l i) offset lane) i

/-- Bit-cast of a vector of `n` 32-bit words back to an integer
(little-endian segment order). -/
def assembleSegments (x : Nat → Nat) : Nat → Nat
  | 0 => 0
  | n + 1 => assembleSegments x n + x n * 2 ^ (32 * n)

/-- `EmitFullWarpShuffleDown`: per-lane semantics of the emitted instruction
sequence, for a value whose type has `bit_width` bits and is a 32-bit float
exactly when `is_float_ty && bit_width == 32`. The fast path bit-casts to a
32-bit integer and issues a single cross-lane read; the general path
zero-extends to `32 * num_segments bit_width` bits, exchanges each 32-bit
segment, reassembles, and truncates back. Bit-casts are identities on bit
patterns, hence on the `Nat` values modelling them. -/
def EmitFullWarpShuffleDown (is_float_ty : Bool) (bit_width offset : Nat)
    (value : Warp) : Warp :=
  if is_float_ty && bit_width == 32 then
    readuplane (fun lane => value lane % 2 ^ bit_width) offset
  else
    let n := num_segments bit_width
    let x0 : Nat → Nat → Nat := fun lane i => segment (value lane % 2 ^ bit_width) i
    fun lane => assembleSegments (shuffleLoop offset x0 n lane) n % 2 ^ bit_width

/-- The specification's whole-pattern exchange: treat the value as an opaque
`bit_width`-bit pattern and perform the lane exchange on it at once. -/
def wholePatternShuffleDown (bit_width offset : Nat) (value : Warp) : Warp :=
  fun lane => value (lane + offset) % 2 ^ bit_width

/-- `IsBlock0Thread0`: per-lane semantics of
`and (icmp eq 0 tid.x) (icmp eq 0 bid.x)`. -/
def IsBlock0Thread0 (thread_idx block_idx : Nat) : Bool :=
  (0 == thread_idx) && (0 == block_idx)

def defaultDnums : DotDimensionNumbers := ⟨[], [], [], []⟩

/-- A parameter leaf used to build concrete test instructions. -/
def paramNode (sh : Shape) : HloInstruction :=
  HloInstruction.node HloOpcode.kParameter sh [] FusionKind.kLoop none ""
    defaultDnums []

def exGoodDotLhs : HloInstruction := paramNode ⟨PrimitiveType.F32, [2, 3], [1, 0]⟩

def exGoodDotRhs : HloInstruction := paramNode ⟨PrimitiveType.F32, [3, 4], [1, 0]⟩

/-- A concrete GEMM-eligible dot: f32 [2,3] x [3,4] -> [2,4]. -/
def exGoodDot : HloInstruction :=
  HloInstruction.node HloOpcode.kDot ⟨PrimitiveType.F32, [2, 4], [1, 0]⟩
    [exGoodDotLhs, exGoodDotRhs]
    FusionKind.kLoop none "" ⟨[1], [0], [], []⟩ []

/-- A concrete GEMM-ineligible dot: same shapes but an s32 output type. -/
def exBadDot : HloInstruction :=
  HloInstruction.node HloOpcode.kDot ⟨PrimitiveType.S32, [2, 4], [1, 0]⟩
    [paramNode ⟨PrimitiveType.F32, [2, 3], [1, 0]⟩,
     paramNode ⟨PrimitiveType.F32, [3, 4], [1, 0]⟩]
    FusionKind.kLoop none "" ⟨[1], [0], [], []⟩ []

/-- An output fusion whose multiply root has the given two operands. -/
def outputFusionOf (a b : HloInstruction) : HloInstruction :=
  HloInstruction.node HloOpcode.kFusion ⟨PrimitiveType.F32, [2, 4], [1, 0]⟩ []
    FusionKind.kOutput
    (some (HloInstruction.node HloOpcode.kMultiply
      ⟨PrimitiveType.F32, [2, 4], [1, 0]⟩ [a, b] FusionKind.kLoop none ""
      defaultDnums []))
    "" defaultDnums []

/-- A loop fusion (kind other than output) with the same multiply root. -/
def exLoopFusion : HloInstruction :=
  HloInstruction.node HloOpcode.kFusion ⟨PrimitiveType.F32, [2, 4], [1, 0]⟩ []
    FusionKind.kLoop
    (some (HloInstruction.node HloOpcode.kMultiply
      ⟨PrimitiveType.F32, [2, 4], [1, 0]⟩ [exGoodDot, paramNode ⟨PrimitiveType.F32, [2, 4], [1, 0]⟩]
      FusionKind.kLoop none "" defaultDnums []))
    "" defaultDnums []

/-- A concrete reduce: input f32 [2,3,4] with layout [2,1,0], eliminating
dimension 0, output [3,4]. -/
def exReduceInput : HloInstruction :=
  paramNode ⟨PrimitiveType.F32, [2, 3, 4], [2, 1, 0]⟩

def exReduce : HloInstruction :=
  HloInstruction.node HloOpcode.kReduce ⟨PrimitiveType.F32, [3, 4], [1, 0]⟩
    [exReduceInput, paramNode ⟨PrimitiveType.F32, [], []⟩]
    FusionKind.kLoop none "" defaultDnums [0]

/-- A custom call with an unrecognized target. -/
def exBogusCall : HloInstruction :=
  HloInstruction.node HloOpcode.kCustomCall ⟨PrimitiveType.F32, [2], [0]⟩ []
    FusionKind.kLoop none "__cudnn$convForward " defaultDnums []

lemma contains_iff_mem (l : List Nat) (a : Nat) : l.contains a = true ↔ a ∈ l := by
  simp [List.contains, List.elem_iff]

lemma assembleSegments_segment (v n : Nat) :
    assembleSegments (segment v) n = v % 2 ^ (32 * n) := by
  induction n with
  | zero => simp [assembleSegments, Nat.mod_one]
  | succ m ih =>
    have h2 : (2 : Nat) ^ (32 * (m + 1)) = 2 ^ (32 * m) * 2 ^ 32 := by
      rw [← pow_add]; ring_nf
    simp only [assembleSegments, ih, segment, h2, Nat.mod_mul]
    ring

lemma assembleSegments_congr (x y : Nat → Nat) (n : Nat)
    (h : ∀ j, j < n → x j = y j) :
    assembleSegments x n = assembleSegments y n := by
  induction n with
  | zero => rfl
  | succ m ih =>
    simp only [assembleSegments]
    rw [ih (fun j hj => h j (Nat.lt_succ_of_lt hj)), h m (Nat.lt_succ_self m)]

lemma shuffleLoop_segment (offset : Nat) (u : Nat → Nat) (i lane j : Nat) :
    shuffleLoop offset (fun l k => segment (u l) k) i lane j =
      if j < i then segment (u (lane + offset)) j else segment (u lane) j := by
  induction i generalizing lane j with
  | zero => simp [shuffleLoop]
  | succ m ih =>
    simp only [shuffleLoop, insertElement, readuplane]
    by_cases hji : j = m
    · subst hji
      rw [if_pos rfl, ih (lane + offset) j, if_neg (lt_irrefl j),
          if_pos (Nat.lt_succ_self j)]
    · rw [if_neg hji, ih lane j]
      by_cases hlt : j < m
      · rw [if_pos hlt, if_pos (Nat.lt_succ_of_lt hlt)]
      · rw [if_neg hlt, if_neg (by omega)]

/-- Both paths of the emitter produce, at every lane, the whole bit pattern
held by the lane `offset` positions ahead, reduced to `bit_width` bits. -/
lemma emitFullWarpShuffleDown_eq (is_float_ty : Bool) (bit_width offset : Nat)
    (value : Warp) (lane : Nat) :
    EmitFullWarpShuffleDown is_float_ty bit_width offset value lane =
      value (lane + offset) % 2 ^ bit_width := by
  unfold EmitFullWarpShuffleDown
  by_cases hc : (is_float_ty && bit_width == 32) = true
  · rw [if_pos hc]; rfl
  · rw [if_neg hc]
    show assembleSegments
        (shuffleLoop offset (fun l i => segment (value l % 2 ^ bit_width) i)
          (num_segments bit_width) lane) (num_segments bit_width) % 2 ^ bit_width = _
    rw [assembleSegments_congr _
          (fun j => segment (value (lane + offset) % 2 ^ bit_width) j) _
          (fun j hj => by rw [shuffleLoop_segment, if_pos hj]),
        assembleSegments_segment]
    have hW : bit_width ≤ 32 * num_segments bit_width := by
      unfold num_segments; omega
    have hlt : value (lane + offset) % 2 ^ bit_width <
        2 ^ (32 * num_segments bit_width) :=
      lt_of_lt_of_le (Nat.mod_lt _ (pow_pos (by norm_num) _))
        (Nat.pow_le_pow_right (by norm_num) hW)
    rw [Nat.mod_eq_of_lt hlt, Nat.mod_mod_of_dvd _ dvd_rfl]

lemma filter_contains_filter (n : Nat) (p : Nat → Bool) :
    (List.range n).filter (fun d => ((List.range n).filter p).contains d) =
      (List.range n).filter p := by
  apply List.filter_congr
  intro a ha
  by_cases hp : p a = true <;>
    simp [List.contains, List.elem_eq_mem, List.mem_filter, ha, hp]

/-- Claim C1: for every lane offset and every bit width, the shuffle-down
emitted by `EmitFullWarpShuffleDown` (decompose into 32-bit segments,
exchange each segment independently, reassemble, truncate) is bit-identical
to the whole-pattern lane exchange, and with offset 0 it reproduces the
original bit pattern exactly. The result is stated on raw bit patterns, so
it is independent of an integer or floating-point interpretation. -/
theorem EmitFullWarpShuffleDown_whole_pattern (is_float_ty : Bool)
    (bit_width offset : Nat) (value : Warp) (lane : Nat) :
    EmitFullWarpShuffleDown is_float_ty bit_width offset value lane =
      wholePatternShuffleDown bit_width offset value lane ∧
    EmitFullWarpShuffleDown is_float_ty bit_width 0 value lane =
      value lane % 2 ^ bit_width := by
  refine ⟨?_, ?_⟩
  · rw [emitFullWarpShuffleDown_eq]; rfl
  · rw [emitFullWarpShuffleDown_eq, Nat.add_zero]

/-- Claim C8: for a 32-bit floating-point value the fast path (one cross-lane
read on the bit-cast value) produces exactly what the general
segment-splitting path produces for the same value and offset. -/
theorem EmitFullWarpShuffleDown_fast_path (offset : Nat) (value : Warp)
    (lane : Nat) :
    EmitFullWarpShuffleDown true 32 offset value lane =
      EmitFullWarpShuffleDown false 32 offset value lane := by
  rw [emitFullWarpShuffleDown_eq, emitFullWarpShuffleDown_eq]

/-- Claim C2 counterexample: an output fusion whose multiply root holds a
GEMM-ineligible dot in operand 0 and a GEMM-eligible dot in operand 1
classifies as `false`, while the operand-swapped fusion classifies as `true`:
swapping which operand holds the eligible product changes the result. -/
theorem ImplementedAsGemm_operand_order_counterexample :
    ImplementedAsGemm (outputFusionOf exBadDot exGoodDot) = some false ∧
    ImplementedAsGemm (outputFusionOf exGoodDot exBadDot) = some true ∧
    ImplementedAsGemm (outputFusionOf exBadDot exGoodDot) ≠
      ImplementedAsGemm (outputFusionOf exGoodDot exBadDot) := by
  refine ⟨rfl, rfl, ?_⟩
  decide

/-- Claim C2 (amended): swapping the fused root's two operands does not
change `ImplementedAsGemm`, provided the other operand is not itself a dot
node; when both operands are dots the classification follows operand 0 and
swapping can change the result. -/
theorem ImplementedAsGemm_swap_non_dot_operand (fsh rsh : Shape)
    (fops : List HloInstruction) (fcct rcct : String)
    (fdn rdn : DotDimensionNumbers) (frd rrd : List Nat)
    (rfk : FusionKind) (rfr : Option HloInstruction) (rop : HloOpcode)
    (a b : HloInstruction)
    (hop : rop = HloOpcode.kMultiply ∨ rop = HloOpcode.kAdd)
    (hb : b.opcode ≠ HloOpcode.kDot) :
    ImplementedAsGemm (HloInstruction.node HloOpcode.kFusion fsh fops
        FusionKind.kOutput
        (some (HloInstruction.node rop rsh [a, b] rfk rfr rcct rdn rrd))
        fcct fdn frd) =
      ImplementedAsGemm (HloInstruction.node HloOpcode.kFusion fsh fops
        FusionKind.kOutput
        (some (HloInstruction.node rop rsh [b, a] rfk rfr rcct rdn rrd))
        fcct fdn frd) := by
  have hropd : rop ≠ HloOpcode.kDot := by
    rcases hop with h | h <;> subst h <;> intro hx <;> cases hx
  obtain ⟨aop, ash, aops, afk, afr, acct, adn, ard⟩ := a
  obtain ⟨bop, bsh, bops, bfk, bfr, bcct, bdn, brd⟩ := b
  replace hb : bop ≠ HloOpcode.kDot := hb
  unfold ImplementedAsGemm
  simp only [HloInstruction.opcode, HloInstruction.fusion_kind,
    HloInstruction.fused_expression_root, HloInstruction.operand,
    HloInstruction.operands, List.get?]
  by_cases ha : aop = HloOpcode.kDot <;> simp [ha, hb, hop, hropd]

/-- Claim C2 witness: the amended statement at a concrete output fusion whose
multiply root holds one eligible dot and one non-dot operand. -/
theorem ImplementedAsGemm_swap_non_dot_operand_witness :
    ImplementedAsGemm (outputFusionOf exGoodDot
        (paramNode ⟨PrimitiveType.F32, [2, 4], [1, 0]⟩)) =
      ImplementedAsGemm (outputFusionOf
        (paramNode ⟨PrimitiveType.F32, [2, 4], [1, 0]⟩) exGoodDot) :=
  ImplementedAsGemm_swap_non_dot_operand
    ⟨PrimitiveType.F32, [2, 4], [1, 0]⟩ ⟨PrimitiveType.F32, [2, 4], [1, 0]⟩
    [] "" "" defaultDnums defaultDnums [] [] FusionKind.kLoop none
    HloOpcode.kMultiply exGoodDot (paramNode ⟨PrimitiveType.F32, [2, 4], [1, 0]⟩)
    (Or.inl rfl) (by decide)

/-- Claim C3: `AreValidGemmShapes` holds iff all three shapes have rank
exactly `batch + 2`, the output element type is one of exactly
{F16, F32, F64, C64, C128}, and neither operand shape has a zero-extent
dimension. -/
theorem AreValidGemmShapes_characterization (lhs rhs output : Shape)
    (b : Nat) :
    AreValidGemmShapes lhs rhs output b = true ↔
      ((output.element_type = PrimitiveType.F16 ∨
        output.element_type = PrimitiveType.F32 ∨
        output.element_type = PrimitiveType.F64 ∨
        output.element_type = PrimitiveType.C64 ∨
        output.element_type = PrimitiveType.C128) ∧
       lhs.rank = b + 2 ∧ rhs.rank = b + 2 ∧ output.rank = b + 2 ∧
       ¬ 0 ∈ lhs.dimensions ∧ ¬ 0 ∈ rhs.dimensions) := by
  simp [AreValidGemmShapes, IsRank2, ShapeUtil.IsZeroElementArray,
    Bool.and_eq_true, Bool.or_eq_true, beq_iff_eq, contains_iff_mem,
    and_assoc, or_assoc]

/-- Claim C4: on a dot whose shapes pass the GEMM shape test, the classifier
returns `some true` when the contracting extents agree and aborts (`none`,
the `CHECK_EQ` firing) when they differ — so under equal contracting extents
the abort branch is unreachable and no soft `false` is possible. -/
theorem DotImplementedAsGemm_contracting_check (dot lhs rhs : HloInstruction)
    (h1 : dot.opcode = HloOpcode.kDot)
    (h2 : dot.operand 0 = some lhs) (h3 : dot.operand 1 = some rhs)
    (h4 : AreValidGemmShapes lhs.shape rhs.shape dot.shape
        dot.dot_dimension_numbers.lhs_batch_dimensions.length = true) :
    DotImplementedAsGemm dot =
      if lhs.shape.dimension
            (dot.dot_dimension_numbers.lhs_contracting_dimensions.getD 0 0) =
          rhs.shape.dimension
            (dot.dot_dimension_numbers.rhs_contracting_dimensions.getD 0 0)
      then some true else none := by
  unfold DotImplementedAsGemm
  rw [h2, h3]
  simp [h1, h4]

/-- Claim C4 witness: the concrete eligible dot with equal contracting
extents. -/
theorem DotImplementedAsGemm_contracting_check_witness :
    DotImplementedAsGemm exGoodDot =
      if exGoodDotLhs.shape.dimension
            (exGoodDot.dot_dimension_numbers.lhs_contracting_dimensions.getD 0 0) =
          exGoodDotRhs.shape.dimension
            (exGoodDot.dot_dimension_numbers.rhs_contracting_dimensions.getD 0 0)
      then some true else none :=
  DotImplementedAsGemm_contracting_check exGoodDot exGoodDotLhs exGoodDotRhs
    rfl rfl rfl (by decide)

/-- Claim C5: the reduction-to-vector validator accepts exactly the reduce
nodes whose kept dimensions (the ascending complement of the eliminated set
against the input rank, `dims_to_keep`) are physically consecutive under the
input's minor-to-major layout and whose output shape equals the input shape
with the eliminated dimensions filtered out, in the same relative order; any
non-reduce opcode yields `false`. -/
theorem IsReductionToVector_characterization (reduce input : HloInstruction)
    (h : reduce.operand 0 = some input) :
    (IsReductionToVector reduce = some true ↔
      (reduce.opcode = HloOpcode.kReduce ∧
       AreDimensionsConsecutive input.shape.minor_to_major
         (dims_to_keep reduce input) = true ∧
       reduce.shape.dimensions =
         (dims_to_keep reduce input).map input.shape.dimension)) ∧
    (reduce.opcode ≠ HloOpcode.kReduce →
      IsReductionToVector reduce = some false) := by
  constructor
  · by_cases hop : reduce.opcode = HloOpcode.kReduce
    · unfold IsReductionToVector
      rw [h, if_neg (by simp [hop])]
      simp only [Option.some.injEq, Bool.and_eq_true, equalsFilteredShape,
        beq_iff_eq, hop, true_and]
      unfold dims_to_keep Shape.rank
      rw [filter_contains_filter]
    · rw [IsReductionToVector, if_pos (by simp [hop])]
      simp [hop]
  · intro hop
    rw [IsReductionToVector, if_pos (by simp [hop])]

/-- Claim C5 witness: the concrete reduce (input [2,3,4], layout [2,1,0],
eliminating dimension 0, output [3,4]) validates. -/
theorem IsReductionToVector_characterization_witness :
    IsReductionToVector exReduce = some true :=
  (IsReductionToVector_characterization exReduce exReduceInput rfl).1.mpr
    (by decide)

/-- Claim C6: the batch-norm predicate holds exactly on custom calls whose
target equals one of the three batch-normalization identifiers, the
convolution predicate exactly on custom calls whose target equals one of the
four convolution identifiers, and no node satisfies both. -/
theorem CustomCallClassifiers_exact_and_disjoint (hlo : HloInstruction) :
    (IsCustomCallToDnnBatchNorm hlo = true ↔
      (hlo.opcode = HloOpcode.kCustomCall ∧
       (hlo.custom_call_target = kCudnnBatchNormForwardInferenceCallTarget ∨
        hlo.custom_call_target = kCudnnBatchNormForwardTrainingCallTarget ∨
        hlo.custom_call_target = kCudnnBatchNormBackwardCallTarget))) ∧
    (IsCustomCallToDnnConvolution hlo = true ↔
      (hlo.opcode = HloOpcode.kCustomCall ∧
       (hlo.custom_call_target = kCudnnConvForwardCallTarget ∨
        hlo.custom_call_target = kCudnnConvBackwardInputCallTarget ∨
        hlo.custom_call_target = kCudnnConvBackwardFilterCallTarget ∨
        hlo.custom_call_target = kCudnnConvBiasActivationForwardCallTarget))) ∧
    ¬ (IsCustomCallToDnnBatchNorm hlo = true ∧
       IsCustomCallToDnnConvolution hlo = true) := by
  have hbn : IsCustomCallToDnnBatchNorm hlo = true ↔
      (hlo.opcode = HloOpcode.kCustomCall ∧
       (hlo.custom_call_target = kCudnnBatchNormForwardInferenceCallTarget ∨
        hlo.custom_call_target = kCudnnBatchNormForwardTrainingCallTarget ∨
        hlo.custom_call_target = kCudnnBatchNormBackwardCallTarget)) := by
    unfold IsCustomCallToDnnBatchNorm
    by_cases hop : hlo.opcode = HloOpcode.kCustomCall <;>
      simp [hop, Bool.or_eq_true, beq_iff_eq, or_assoc]
  have hcv : IsCustomCallToDnnConvolution hlo = true ↔
      (hlo.opcode = HloOpcode.kCustomCall ∧
       (hlo.custom_call_target = kCudnnConvForwardCallTarget ∨
        hlo.custom_call_target = kCudnnConvBackwardInputCallTarget ∨
        hlo.custom_call_target = kCudnnConvBackwardFilterCallTarget ∨
        hlo.custom_call_target = kCudnnConvBiasActivationForwardCallTarget)) := by
    unfold IsCustomCallToDnnConvolution
    by_cases hop : hlo.opcode = HloOpcode.kCustomCall <;>
      simp [hop, Bool.or_eq_true, beq_iff_eq, or_assoc]
  refine ⟨hbn, hcv, ?_⟩
  rintro ⟨h1, h2⟩
  obtain ⟨-, hb⟩ := hbn.mp h1
  obtain ⟨-, hc⟩ := hcv.mp h2
  rcases hb with hb | hb | hb <;> rcases hc with hc | hc | hc | hc <;>
    (rw [hb] at hc; revert hc; decide)

/-- Claim C7: `GetCudnnConvKind` succeeds with a given kind exactly when the
call target equals that kind's convolution identifier, and on any other
target it returns the explicit error carrying the exact offending string. -/
theorem GetCudnnConvKind_characterization (instr : HloInstruction)
    (k : CudnnConvKind) :
    (GetCudnnConvKind instr = Except.ok k ↔
      instr.custom_call_target = convKindTarget k) ∧
    ((instr.custom_call_target ≠ kCudnnConvForwardCallTarget ∧
      instr.custom_call_target ≠ kCudnnConvBackwardInputCallTarget ∧
      instr.custom_call_target ≠ kCudnnConvBackwardFilterCallTarget ∧
      instr.custom_call_target ≠ kCudnnConvBiasActivationForwardCallTarget) →
      GetCudnnConvKind instr =
        Except.error ("Unexpected call target: " ++
          instr.custom_call_target)) := by
  constructor
  · unfold GetCudnnConvKind
    cases k <;> simp only [convKindTarget] <;> split_ifs with h1 h2 h3 h4 <;>
      simp_all <;> decide
  · rintro ⟨h1, h2, h3, h4⟩
    unfold GetCudnnConvKind
    rw [if_neg h1, if_neg h2, if_neg h3, if_neg h4]

/-- Claim C9: the single-lane-zero predicate holds exactly at thread index 0
and block index 0, and in any simulated grid of size at least 2 x 2 exactly
one (thread, block) pair satisfies it. -/
theorem IsBlock0Thread0_unique_lane :
    (∀ thread_idx block_idx : Nat,
      IsBlock0Thread0 thread_idx block_idx = true ↔
        (thread_idx = 0 ∧ block_idx = 0)) ∧
    (∀ tcount bcount : Nat, 2 ≤ tcount → 2 ≤ bcount →
      ((Finset.range tcount ×ˢ Finset.range bcount).filter
          (fun p => IsBlock0Thread0 p.1 p.2 = true)).card = 1) := by
  have hpt : ∀ thread_idx block_idx : Nat,
      IsBlock0Thread0 thread_idx block_idx = true ↔
        (thread_idx = 0 ∧ block_idx = 0) := by
    intro t b
    unfold IsBlock0Thread0
    rw [Bool.and_eq_true, beq_iff_eq, beq_iff_eq]
    omega
  refine ⟨hpt, ?_⟩
  intro tcount bcount ht hb
  have hset : (Finset.range tcount ×ˢ Finset.range bcount).filter
      (fun p => IsBlock0Thread0 p.1 p.2 = true) = {((0 : Nat), (0 : Nat))} := by
    ext p
    rw [Finset.mem_filter, Finset.mem_product]
    simp only [Finset.mem_range, Finset.mem_singleton, hpt]
    constructor
    · rintro ⟨-, h1, h2⟩
      exact Prod.ext h1 h2
    · rintro rfl
      exact ⟨⟨by omega, by omega⟩, rfl, rfl⟩
  rw [hset, Finset.card_singleton]

/-- Claim C10: a fusion node whose fusion kind is not output fusion is never
classified GEMM-eligible, whatever its fused root looks like. -/
theorem ImplementedAsGemm_requires_output_fusion (hlo : HloInstruction)
    (h1 : hlo.opcode = HloOpcode.kFusion)
    (h2 : hlo.fusion_kind ≠ FusionKind.kOutput) :
    ImplementedAsGemm hlo = some false := by
  have hd : hlo.opcode ≠ HloOpcode.kDot := by rw [h1]; intro hx; cases hx
  unfold ImplementedAsGemm
  simp [hd, h1, h2]

/-- Claim C10 witness: the concrete loop fusion wrapping an eligible dot
still classifies as `false`. -/
theorem ImplementedAsGemm_requires_output_fusion_witness :
    ImplementedAsGemm exLoopFusion = some false :=
  ImplementedAsGemm_requires_output_fusion exLoopFusion rfl (by decide)

end XlaGpu
